import Mathlib

/-!
Verification development for the Scalper webhook engine (`src/app.py`).

The Python program keeps four process-wide dictionaries
(`EMA_STATE`, `LAST_TRADES`, `POSITION_STATE`, `PENDING_TRADES`) and
processes three kinds of inbound signals on its `/webhook` route:
structured `ema_update` JSON records, free-text "New Trade Design"
alerts, and free-text "Exit Signal" alerts.

The shallow embedding below models:
 - floats (prices, timestamps) as `ℚ`;
 - the four dictionaries as functions `String → Option _`;
 - outbound delivery (`send_to_traderspost`) as an oracle
   `ℕ → Bool` giving the `ok` field of the k-th delivery attempt of
   the current request (the handlers only ever read `result["ok"]`,
   with `ok = False` covering both an unset `TP_WEBHOOK_URL` and a
   network failure);
 - the `TP_DEFAULT_QTY` environment value as an explicit `qty : ℤ`
   parameter.

Python `action` / `direction` values are the strings `"buy"`,
`"sell"`, `"exit"` (or `None`), and are modelled as `String` /
`Option String` to keep the comparisons (`current_dir == "buy"`)
byte-for-byte faithful.
-/

namespace Scalper

/-- One `EMA_STATE[ticker]` entry, as written by
`update_ema_state_from_json`. -/
structure EmaInfo where
  above13 : Bool
  ema13 : ℚ
  close : ℚ
  time : String
  receivedAt : ℚ
  deriving DecidableEq, Repr

/-- One `PENDING_TRADES[ticker]` entry, as written by the `/webhook`
Titan branch. -/
structure PendingTrade where
  price : Option ℚ
  time : Option String
  createdAt : ℚ
  deriving DecidableEq, Repr

/-- One `POSITION_STATE[ticker]` entry.  The Python dicts written by the
handlers carry either an `opened_time` or a `closed_time` key; an
absent key is `none`. -/
structure Position where
  isOpen : Bool
  direction : Option String
  openedTime : Option String
  closedTime : Option String
  price : Option ℚ
  deriving DecidableEq, Repr

/-- A payload handed to `send_to_traderspost`: `Option` fields model
dict keys that are only conditionally present. -/
structure Payload where
  ticker : String
  action : String
  quantity : Option ℤ
  price : Option ℚ
  deriving DecidableEq, Repr

/-- One `LAST_TRADES[ticker]` audit record.  The stored TradersPost
result dicts are abstracted to their `ok` bit, which is all the program
ever reads from them. -/
inductive AuditEvent where
  | exitAndReverse (fromDir : Option String) (toDir : String)
      (price : Option ℚ) (time : Option String) (exitOk entryOk : Bool)
  | newTrade (direction : String) (price : Option ℚ) (above13 : Bool)
      (emaSnapshot : EmaInfo) (time : Option String) (ok : Bool)
  | exitEvent (price : Option ℚ) (time : Option String) (ok : Bool)
  deriving DecidableEq, Repr

/-- The dict each handler returns to the HTTP layer: `{"ok": ...}` plus
an optional `"event"` and optional `"skipped"` key. -/
structure HandlerResult where
  ok : Bool
  event : Option String
  skipped : Option String
  deriving DecidableEq, Repr

/-- The four process-wide dictionaries of `app.py`. -/
structure EngineState where
  emaState : String → Option EmaInfo
  lastTrades : String → Option AuditEvent
  positionState : String → Option Position
  pendingTrades : String → Option PendingTrade

/-- All four dictionaries start empty. -/
def initState : EngineState :=
  ⟨fun _ => none, fun _ => none, fun _ => none, fun _ => none⟩

/-- Dictionary store `m[k] = v`. -/
def upd {α : Type} (m : String → Option α) (k : String) (v : α) :
    String → Option α :=
  fun x => if x = k then some v else m x

/-- Dictionary delete `m.pop(k)` (the remaining map). -/
def erasePending (m : String → Option PendingTrade) (k : String) :
    String → Option PendingTrade :=
  fun x => if x = k then none else m x

/-- `POSITION_STATE.get(ticker, {})`: an absent entry behaves as a dict
whose `.get("open")` / `.get("direction")` are `None` (falsy / none). -/
def getPos (st : EngineState) (ticker : String) : Position :=
  (st.positionState ticker).getD ⟨false, none, none, none, none⟩

/-- `handle_new_trade_for_ticker` (app.py lines 131-240).

If a position is open: send `exit`, then send an entry in
`"sell" if current_dir == "buy" else "buy"`, record the position as open
in the new direction, combined ok = both deliveries ok.
Otherwise: if no EMA state, skip; else enter in the direction given by
`above13`. Returns (new state, payloads sent in order, response dict). -/
def handleNewTradeForTicker (qty : ℤ) (st : EngineState) (ticker : String)
    (price : Option ℚ) (timeStr : Option String) (oracle : ℕ → Bool) :
    EngineState × List Payload × HandlerResult :=
  let pos := getPos st ticker
  if pos.isOpen then
    let currentDir := pos.direction
    let exitPayload : Payload :=
      ⟨ticker, "exit", if qty > 0 then some qty else none, price⟩
    let exitOk := oracle 0
    let newDir := if currentDir = some "buy" then "sell" else "buy"
    let entryPayload : Payload :=
      ⟨ticker, newDir, if qty > 0 then some qty else none, price⟩
    let entryOk := oracle 1
    let st' : EngineState :=
      { st with
        positionState :=
          upd st.positionState ticker ⟨true, some newDir, timeStr, none, price⟩,
        lastTrades :=
          upd st.lastTrades ticker
            (.exitAndReverse currentDir newDir price timeStr exitOk entryOk) }
    (st', [exitPayload, entryPayload],
      ⟨exitOk && entryOk, some "exit_and_reverse", none⟩)
  else
    match st.emaState ticker with
    | none => (st, [], ⟨true, none, some "no_ema_state"⟩)
    | some emaInfo =>
      let direction := if emaInfo.above13 then "buy" else "sell"
      let payload : Payload :=
        ⟨ticker, direction, if qty > 0 then some qty else none, price⟩
      let ok := oracle 0
      let st' : EngineState :=
        { st with
          positionState :=
            upd st.positionState ticker
              ⟨true, some direction, timeStr, none, price⟩,
          lastTrades :=
            upd st.lastTrades ticker
              (.newTrade direction price emaInfo.above13 emaInfo timeStr ok) }
      (st', [payload], ⟨ok, some "new_trade", none⟩)

/-- `handle_exit_for_ticker` (app.py lines 243-271): send one `exit`
payload (no quantity key) and record the position as flat. -/
def handleExitForTicker (st : EngineState) (ticker : String)
    (price : Option ℚ) (timeStr : Option String) (oracle : ℕ → Bool) :
    EngineState × List Payload × HandlerResult :=
  let payload : Payload := ⟨ticker, "exit", none, price⟩
  let ok := oracle 0
  let st' : EngineState :=
    { st with
      positionState :=
        upd st.positionState ticker ⟨false, none, none, timeStr, price⟩,
      lastTrades := upd st.lastTrades ticker (.exitEvent price timeStr ok) }
  (st', [payload], ⟨ok, some "exit", none⟩)

/-- The fields of an `ema_update` JSON record that
`update_ema_state_from_json` reads.  `aboveRaw` is the raw string value
of `above13` (already defaulted to the `above` key or `""`); `ema13` /
`close` are `none` when the key is missing (Python then defaults to
`0.0`). -/
structure EmaUpdateData where
  ticker : Option String
  aboveRaw : String
  ema13 : Option ℚ
  close : Option ℚ
  time : String
  deriving DecidableEq, Repr

/-- Python truthiness of the `above13` field:
`lower() in {"true", "1", "yes"}`. -/
def truthy (s : String) : Bool :=
  let l := s.toLower
  l == "true" || l == "1" || l == "yes"

/-- `update_ema_state_from_json` (app.py lines 59-93): store the parsed
observation stamped with the current clock, returning the ticker; a
missing or empty (falsy) ticker stores nothing and returns `none`. -/
def update_ema_state_from_json (st : EngineState) (data : EmaUpdateData)
    (now : ℚ) : EngineState × Option String :=
  match data.ticker with
  | none => (st, none)
  | some t =>
    if t = "" then (st, none)
    else
      let obs : EmaInfo :=
        ⟨truthy data.aboveRaw, data.ema13.getD 0, data.close.getD 0,
          data.time, now⟩
      ({ st with emaState := upd st.emaState t obs }, some t)

/-- The `/webhook` `ema_update` branch (app.py lines 289-307): update
the EMA state; if a pending Titan trade exists for the ticker, pop it
and run `handle_new_trade_for_ticker` with its price and time. -/
def processEmaUpdate (qty : ℤ) (st : EngineState) (data : EmaUpdateData)
    (now : ℚ) (oracle : ℕ → Bool) :
    EngineState × List Payload × HandlerResult :=
  match update_ema_state_from_json st data now with
  | (st1, some t) =>
    match st1.pendingTrades t with
    | some pending =>
      let st2 := { st1 with pendingTrades := erasePending st1.pendingTrades t }
      handleNewTradeForTicker qty st2 t pending.price pending.time oracle
    | none => (st1, [], ⟨true, some "ema_update_only", none⟩)
  | (st1, none) => (st1, [], ⟨true, some "ema_update_only", none⟩)

/-- The `use_immediate` freshness test of the Titan branch: an EMA
observation exists and `now - received_at <= 5.0`. -/
def titanFresh (st : EngineState) (ticker : String) (now : ℚ) : Bool :=
  match st.emaState ticker with
  | some s => decide (now - s.receivedAt ≤ 5)
  | none => false

/-- The `/webhook` Titan branch (app.py lines 318-350): if the ticker's
EMA observation exists and is at most 5 seconds old, fire
`handle_new_trade_for_ticker` immediately; otherwise store a pending
trade (last write wins) and emit nothing. -/
def processTitan (qty : ℤ) (st : EngineState) (ticker : String) (price : ℚ)
    (now : ℚ) (oracle : ℕ → Bool) :
    EngineState × List Payload × HandlerResult :=
  if titanFresh st ticker now then
    handleNewTradeForTicker qty st ticker (some price) none oracle
  else
    ({ st with
        pendingTrades := upd st.pendingTrades ticker ⟨some price, none, now⟩ },
      [], ⟨true, some "pending_trade_stored", none⟩)

/-- The `/webhook` Exit branch (app.py lines 352-358). -/
def processExit (st : EngineState) (ticker : String) (price : ℚ)
    (oracle : ℕ → Bool) : EngineState × List Payload × HandlerResult :=
  handleExitForTicker st ticker (some price) none oracle

/-! ### The Titan free-text parser

`TITAN_RE` in app.py is
`(?P<ticker>[A-Z0-9_]+)\s+New Trade Design\s*,\s*Price\s*=\s*(?P<price>[0-9.]+)`
used via `.search` (leftmost match).  Every two adjacent constructs of
this pattern draw from disjoint character sets (ticker chars are never
whitespace, whitespace never starts the literals, `,` / `=` / digits
are never whitespace), so Python's backtracking greedy search is
exactly a maximal-munch matcher tried at each start position from the
left; that is what is implemented here.  `\s` is modelled by its ASCII
cases (the inputs of interest contain no exotic Unicode whitespace).
The Python parser additionally converts the price text with `float`;
prices are kept here as the matched numeral text. -/

/-- The ticker character class `[A-Z0-9_]` of `TITAN_RE`. -/
def isTickChar (c : Char) : Bool :=
  ('A' ≤ c && c ≤ 'Z') || ('0' ≤ c && c ≤ '9') || c == '_'

/-- ASCII cases of the regex class `\s`. -/
def isWsChar (c : Char) : Bool :=
  c == ' ' || c == '\t' || c == '\n' || c == '\r' ||
  c == '\x0b' || c == '\x0c'

/-- The price character class `[0-9.]` of `TITAN_RE`. -/
def isNumChar (c : Char) : Bool :=
  ('0' ≤ c && c ≤ '9') || c == '.'

/-- Consume an exact literal prefix, returning the rest. -/
def dropLit : List Char → List Char → Option (List Char)
  | [], cs => some cs
  | _ :: _, [] => none
  | l :: ls, c :: cs => if c = l then dropLit ls cs else none

/-- Match `TITAN_RE` anchored at the head of `cs`; on success return
the ticker and price captures. -/
def matchTitanAt (cs : List Char) : Option (List Char × List Char) :=
  let tick := cs.takeWhile isTickChar
  if tick.isEmpty then none else
  let r1 := cs.dropWhile isTickChar
  let ws := r1.takeWhile isWsChar
  if ws.isEmpty then none else
  let r2 := r1.dropWhile isWsChar
  match dropLit "New Trade Design".data r2 with
  | none => none
  | some r3 =>
    match r3.dropWhile isWsChar with
    | ',' :: r5 =>
      let r6 := r5.dropWhile isWsChar
      match dropLit "Price".data r6 with
      | none => none
      | some r7 =>
        match r7.dropWhile isWsChar with
        | '=' :: r9 =>
          let r10 := r9.dropWhile isWsChar
          let num := r10.takeWhile isNumChar
          if num.isEmpty then none else some (tick, num)
        | _ => none
    | _ => none

/-- `TITAN_RE.search`: try `matchTitanAt` at each position from the
left (a match needs a nonempty ticker, so the empty suffix never
matches). -/
def titanSearch : List Char → Option (List Char × List Char)
  | [] => none
  | c :: cs =>
    match matchTitanAt (c :: cs) with
    | some r => some r
    | none => titanSearch cs

/-- `parse_titan_new_trade` (app.py lines 109-116): `none` models the
empty dict returned when the regex does not match; on a match the
ticker and price captures are returned. -/
def parse_titan_new_trade (text : String) : Option (String × String) :=
  (titanSearch text.data).map fun r => (String.mk r.1, String.mk r.2)

/-- A classified inbound signal, as dispatched by the `/webhook` route. -/
inductive Signal where
  | emaUpdate (data : EmaUpdateData)
  | titanNewTrade (ticker : String) (price : ℚ)
  | exitSig (ticker : String) (price : ℚ)

/-- One `/webhook` request processed end to end on a classified signal. -/
def step (qty : ℤ) (st : EngineState) (sig : Signal) (now : ℚ)
    (oracle : ℕ → Bool) : EngineState × List Payload × HandlerResult :=
  match sig with
  | .emaUpdate data => processEmaUpdate qty st data now oracle
  | .titanNewTrade t p => processTitan qty st t p now oracle
  | .exitSig t p => processExit st t p oracle

/-- Reversal target for a well-defined direction:
the strict complement of `"buy"` / `"sell"`. -/
def oppDir (d : String) : String :=
  if d = "buy" then "sell" else "buy"

/-- The ledger invariant: a flat position (including the implicit flat
position of an absent ledger entry) has direction `none`. -/
def PosInvariant (st : EngineState) : Prop :=
  ∀ t, (getPos st t).isOpen = false → (getPos st t).direction = none

/-- The instrument character set described by the specification:
alphanumeric plus colon, underscore, dot, hyphen, bang.  (This follows
the spec's words; the code's `TITAN_RE` uses `[A-Z0-9_]` instead.) -/
def specInstChar (c : Char) : Bool :=
  c.isAlphanum || c == ':' || c == '_' || c == '.' || c == '-' || c == '!'

/-! ### Concrete demonstration states used by witnesses -/

/-- A fresh EMA observation received at engine time 0. -/
def demoEma : EmaInfo := ⟨true, 25300, 25310, "t0", 0⟩

/-- A state with a fresh EMA observation and an open long position. -/
def demoOpenLong : EngineState :=
  { initState with
    emaState := upd initState.emaState "MNQZ2025" demoEma,
    positionState :=
      upd initState.positionState "MNQZ2025"
        ⟨true, some "buy", none, none, some 25300⟩ }

/-- A state whose ledger entry violates the invariant: open with
direction `none`; the EMA observation is fresh at time 0. -/
def invalidPosState : EngineState :=
  { initState with
    emaState := upd initState.emaState "MNQZ2025" demoEma,
    positionState :=
      upd initState.positionState "MNQZ2025" ⟨true, none, none, none, none⟩ }

/-- A pending Titan trade at price 25312, created at engine time 0. -/
def demoPending : PendingTrade := ⟨some 25312, none, 0⟩

/-- A state holding only a pending Titan trade for MNQZ2025. -/
def demoPendingSt : EngineState :=
  { initState with
    pendingTrades := upd initState.pendingTrades "MNQZ2025" demoPending }

/-- A concrete `ema_update` record for MNQZ2025 with `above13 = "true"`. -/
def demoData : EmaUpdateData := ⟨some "MNQZ2025", "true", some 25300, some 25310, "t1"⟩

/-! ### Helper lemmas -/

theorem upd_self {α : Type} (m : String → Option α) (k : String) (v : α) :
    upd m k v k = some v := by
  simp [upd]

theorem upd_upd_same {α : Type} (m : String → Option α) (k : String) (v v' : α) :
    upd (upd m k v) k v' = upd m k v' := by
  funext x
  by_cases h : x = k <;> simp [upd, h]

theorem getPos_upd_self (em : String → Option EmaInfo)
    (lt : String → Option AuditEvent) (ps : String → Option Position)
    (pd : String → Option PendingTrade) (k : String) (v : Position) :
    getPos ⟨em, lt, upd ps k v, pd⟩ k = v := by
  simp [getPos, upd]

/-- `handle_new_trade_for_ticker` never touches `PENDING_TRADES`. -/
theorem handleNewTrade_pending (qty : ℤ) (st : EngineState) (ticker : String)
    (price : Option ℚ) (timeStr : Option String) (oracle : ℕ → Bool) :
    (handleNewTradeForTicker qty st ticker price timeStr oracle).1.pendingTrades =
      st.pendingTrades := by
  unfold handleNewTradeForTicker
  by_cases h : (getPos st ticker).isOpen = true
  · simp [h]
  · cases hE : st.emaState ticker <;> simp [h, hE]

/-- `handle_new_trade_for_ticker` never touches `EMA_STATE`. -/
theorem handleNewTrade_ema (qty : ℤ) (st : EngineState) (ticker : String)
    (price : Option ℚ) (timeStr : Option String) (oracle : ℕ → Bool) :
    (handleNewTradeForTicker qty st ticker price timeStr oracle).1.emaState =
      st.emaState := by
  unfold handleNewTradeForTicker
  by_cases h : (getPos st ticker).isOpen = true
  · simp [h]
  · cases hE : st.emaState ticker <;> simp [h, hE]

/-! ### C5: ExitSignal always emits one exit and leaves the position flat -/

/-- C5: for every prior state (open long, open short, or flat),
processing an ExitSignal sends exactly one `exit` instruction and
leaves the instrument's Position flat with direction `none`. -/
theorem exitSignal_one_exit_flat (st : EngineState) (t : String) (price : ℚ)
    (oracle : ℕ → Bool) :
    (processExit st t price oracle).2.1 = [⟨t, "exit", none, some price⟩] ∧
    (getPos (processExit st t price oracle).1 t).isOpen = false ∧
    (getPos (processExit st t price oracle).1 t).direction = none := by
  simp [processExit, handleExitForTicker, getPos, upd]

/-! ### C7: both legs of a reversal are attempted; combined ok is AND -/

/-- C7: in the two-instruction reversal decision, both deliveries are
attempted whatever the outcomes are (two payloads are sent for every
oracle), and the decision's combined `ok` is the conjunction of the two
deliveries' `ok` results. -/
theorem reversal_both_attempted (qty : ℤ) (st : EngineState) (t : String)
    (price : Option ℚ) (timeStr : Option String) (oracle : ℕ → Bool)
    (hopen : (getPos st t).isOpen = true) :
    (handleNewTradeForTicker qty st t price timeStr oracle).2.1.length = 2 ∧
    (handleNewTradeForTicker qty st t price timeStr oracle).2.2.ok =
      (oracle 0 && oracle 1) := by
  simp [handleNewTradeForTicker, hopen]

/-- Witness for C7 at a concrete open-long state, with both deliveries
failing. -/
theorem reversal_both_attempted_witness :
    (getPos demoOpenLong "MNQZ2025").isOpen = true ∧
    (handleNewTradeForTicker 1 demoOpenLong "MNQZ2025" (some 25400) none
        (fun _ => false)).2.1.length = 2 ∧
    (handleNewTradeForTicker 1 demoOpenLong "MNQZ2025" (some 25400) none
        (fun _ => false)).2.2.ok =
      ((fun _ => false) 0 && (fun _ => false) 1) :=
  ⟨by decide,
    reversal_both_attempted 1 demoOpenLong "MNQZ2025" (some 25400) none
      (fun _ => false) (by decide)⟩

/-! ### C2: a fresh TradeDesignSignal on an open position always reverses -/

/-- C2: with an open position of direction `d` (long `"buy"` or short
`"sell"`) and a fresh trend observation `e` (at most 5 seconds old), a
TradeDesignSignal emits exactly two instructions in order — exit, then
enter in `oppDir d` — and the resulting position direction is the
strict complement of `d`.  The observation `e` is arbitrary, so the
outcome is independent of its `above13` value. -/
theorem titan_fresh_reversal (qty : ℤ) (st : EngineState) (t : String)
    (price now : ℚ) (oracle : ℕ → Bool) (e : EmaInfo) (d : String)
    (hopen : (getPos st t).isOpen = true)
    (hdir : (getPos st t).direction = some d)
    (hd : d = "buy" ∨ d = "sell")
    (hema : st.emaState t = some e)
    (hfresh : now - e.receivedAt ≤ 5) :
    (processTitan qty st t price now oracle).2.1 =
      [⟨t, "exit", if qty > 0 then some qty else none, some price⟩,
       ⟨t, oppDir d, if qty > 0 then some qty else none, some price⟩] ∧
    getPos (processTitan qty st t price now oracle).1 t =
      ⟨true, some (oppDir d), none, none, some price⟩ ∧
    oppDir d ≠ d := by
  have himm : titanFresh st t now = true := by
    unfold titanFresh; rw [hema]; exact decide_eq_true hfresh
  rcases hd with rfl | rfl <;>
  · simp only [processTitan, himm, if_true]
    simp [handleNewTradeForTicker, hopen, hdir, oppDir]
    simp [getPos, upd]

/-- Witness for C2: open long, fresh observation, reversal to short. -/
theorem titan_fresh_reversal_witness :
    (getPos demoOpenLong "MNQZ2025").isOpen = true ∧
    (processTitan 1 demoOpenLong "MNQZ2025" 25400 3 (fun _ => true)).2.1 =
      [⟨"MNQZ2025", "exit", some 1, some 25400⟩,
       ⟨"MNQZ2025", oppDir "buy", some 1, some 25400⟩] ∧
    getPos (processTitan 1 demoOpenLong "MNQZ2025" 25400 3 (fun _ => true)).1
        "MNQZ2025" = ⟨true, some (oppDir "buy"), none, none, some 25400⟩ :=
  ⟨rfl,
    (titan_fresh_reversal 1 demoOpenLong "MNQZ2025" 25400 3 (fun _ => true)
        demoEma "buy" rfl rfl (Or.inl rfl) rfl (by norm_num [demoEma])).1,
    (titan_fresh_reversal 1 demoOpenLong "MNQZ2025" 25400 3 (fun _ => true)
        demoEma "buy" rfl rfl (Or.inl rfl) rfl (by norm_num [demoEma])).2.1⟩

/-! ### C6: the invalid ledger state (open, direction none) -/

/-- C6 counterexample: with the ledger in the invalid state
`isOpen = true`, `direction = none` and a fresh observation, the code
does NOT leave the position flat and does NOT refrain from entering: it
sends an exit and then an enter whose direction defaults to `"buy"`
(`new_dir = "sell" if current_dir == "buy" else "buy"` with
`current_dir = None`), and records the position as open long. -/
theorem invalid_state_cx :
    (processTitan 1 invalidPosState "MNQZ2025" 25400 0 (fun _ => true)).2.1 =
      [⟨"MNQZ2025", "exit", some 1, some 25400⟩,
       ⟨"MNQZ2025", "buy", some 1, some 25400⟩] ∧
    getPos (processTitan 1 invalidPosState "MNQZ2025" 25400 0
        (fun _ => true)).1 "MNQZ2025" =
      ⟨true, some "buy", none, none, some 25400⟩ := by
  have himm : titanFresh invalidPosState "MNQZ2025" 0 = true := by
    simp [titanFresh, invalidPosState, initState, upd, demoEma]
  simp only [processTitan, himm, if_true]
  simp [handleNewTradeForTicker, invalidPosState, initState, getPos, upd]

/-- C6 amended: on the invalid state (open, direction `none`) a fresh
TradeDesignSignal treats the entry like any open position and reverses
with default target `"buy"`: it emits exit then enter(buy) and records
the position as open long — it does not log-and-reset to flat. -/
theorem invalid_state_reverses_to_buy (qty : ℤ) (st : EngineState)
    (t : String) (price now : ℚ) (oracle : ℕ → Bool) (e : EmaInfo)
    (hopen : (getPos st t).isOpen = true)
    (hdir : (getPos st t).direction = none)
    (hema : st.emaState t = some e)
    (hfresh : now - e.receivedAt ≤ 5) :
    (processTitan qty st t price now oracle).2.1 =
      [⟨t, "exit", if qty > 0 then some qty else none, some price⟩,
       ⟨t, "buy", if qty > 0 then some qty else none, some price⟩] ∧
    getPos (processTitan qty st t price now oracle).1 t =
      ⟨true, some "buy", none, none, some price⟩ := by
  have himm : titanFresh st t now = true := by
    unfold titanFresh; rw [hema]; exact decide_eq_true hfresh
  simp only [processTitan, himm, if_true]
  simp [handleNewTradeForTicker, hopen, hdir]
  simp [getPos, upd]

/-- Witness for the amended C6 at the concrete invalid state. -/
theorem invalid_state_reverses_to_buy_witness :
    (getPos invalidPosState "MNQZ2025").isOpen = true ∧
    (getPos invalidPosState "MNQZ2025").direction = none ∧
    getPos (processTitan 2 invalidPosState "MNQZ2025" 25500 1
        (fun _ => false)).1 "MNQZ2025" =
      ⟨true, some "buy", none, none, some 25500⟩ :=
  ⟨rfl, rfl,
    (invalid_state_reverses_to_buy 2 invalidPosState "MNQZ2025" 25500 1
        (fun _ => false) demoEma rfl rfl rfl (by norm_num [demoEma])).2⟩

/-! ### C4: stale or missing trend data defers the trade -/

theorem titanFresh_false_of_stale (st : EngineState) (t : String) (now : ℚ)
    (hstale : ∀ e, st.emaState t = some e → ¬ now - e.receivedAt ≤ 5) :
    titanFresh st t now = false := by
  unfold titanFresh
  cases hE : st.emaState t with
  | none => rfl
  | some e => simpa using hstale e hE

/-- C4: a TradeDesignSignal whose instrument has no trend observation,
or one older than 5 seconds, emits nothing and stores exactly one
pending entry with the signal's price; a second such signal with no
intervening trend update (at a no-earlier clock) overwrites it, so only
the later price survives. -/
theorem stale_titan_defers (qty : ℤ) (st : EngineState) (t : String)
    (price price₂ now now₂ : ℚ) (oracle oracle₂ : ℕ → Bool)
    (hstale : ∀ e, st.emaState t = some e → ¬ now - e.receivedAt ≤ 5)
    (hmono : now ≤ now₂) :
    processTitan qty st t price now oracle =
      ({ st with
          pendingTrades := upd st.pendingTrades t ⟨some price, none, now⟩ },
        [], ⟨true, some "pending_trade_stored", none⟩) ∧
    (processTitan qty (processTitan qty st t price now oracle).1 t price₂
        now₂ oracle₂).1.pendingTrades =
      upd st.pendingTrades t ⟨some price₂, none, now₂⟩ ∧
    (processTitan qty (processTitan qty st t price now oracle).1 t price₂
        now₂ oracle₂).2.1 = [] := by
  have hfr : titanFresh st t now = false := titanFresh_false_of_stale st t now hstale
  have h1 : processTitan qty st t price now oracle =
      ({ st with
          pendingTrades := upd st.pendingTrades t ⟨some price, none, now⟩ },
        [], ⟨true, some "pending_trade_stored", none⟩) := by
    simp [processTitan, hfr]
  have hstale₂ : ∀ e,
      ({ st with
          pendingTrades :=
            upd st.pendingTrades t ⟨some price, none, now⟩ } :
        EngineState).emaState t = some e → ¬ now₂ - e.receivedAt ≤ 5 := by
    intro e hE hc
    exact hstale e hE (by linarith)
  have hfr2 := titanFresh_false_of_stale _ t now₂ hstale₂
  refine ⟨h1, ?_, ?_⟩ <;> rw [h1] <;> simp [processTitan, hfr2, upd_upd_same]

/-- Witness for C4 from the empty state (no trend observation). -/
theorem stale_titan_defers_witness :
    processTitan 1 initState "MNQZ2025" 25312 0 (fun _ => true) =
      ({ initState with
          pendingTrades :=
            upd initState.pendingTrades "MNQZ2025" ⟨some 25312, none, 0⟩ },
        [], ⟨true, some "pending_trade_stored", none⟩) ∧
    (processTitan 1
        (processTitan 1 initState "MNQZ2025" 25312 0 (fun _ => true)).1
        "MNQZ2025" 25999 1 (fun _ => true)).1.pendingTrades =
      upd initState.pendingTrades "MNQZ2025" ⟨some 25999, none, 1⟩ ∧
    (processTitan 1
        (processTitan 1 initState "MNQZ2025" 25312 0 (fun _ => true)).1
        "MNQZ2025" 25999 1 (fun _ => true)).2.1 = [] :=
  stale_titan_defers 1 initState "MNQZ2025" 25312 25999 0 1 (fun _ => true)
    (fun _ => true) (by intro e h; simp [initState] at h) (by norm_num)

/-! ### C8: a TrendUpdate with no pending entry only records the
observation -/

/-- C8: processing a trend update for an instrument with no pending
entry overwrites that instrument's observation unconditionally, stamped
with the current clock; no instruction is emitted and the position
ledger, pending queue and audit map are left untouched. -/
theorem trend_update_frame (qty : ℤ) (st : EngineState)
    (data : EmaUpdateData) (t : String) (now : ℚ) (oracle : ℕ → Bool)
    (ht : data.ticker = some t) (hne : ¬ t = "")
    (hnp : st.pendingTrades t = none) :
    (processEmaUpdate qty st data now oracle).1.emaState =
      upd st.emaState t
        ⟨truthy data.aboveRaw, data.ema13.getD 0, data.close.getD 0,
          data.time, now⟩ ∧
    (processEmaUpdate qty st data now oracle).1.positionState =
      st.positionState ∧
    (processEmaUpdate qty st data now oracle).1.pendingTrades =
      st.pendingTrades ∧
    (processEmaUpdate qty st data now oracle).1.lastTrades =
      st.lastTrades ∧
    (processEmaUpdate qty st data now oracle).2.1 = [] := by
  simp [processEmaUpdate, update_ema_state_from_json, ht, hne, hnp]

/-- Witness for C8 at the empty state and a concrete update record. -/
theorem trend_update_frame_witness :
    (processEmaUpdate 1 initState demoData 7 (fun _ => true)).1.emaState =
      upd initState.emaState "MNQZ2025"
        ⟨truthy demoData.aboveRaw, demoData.ema13.getD 0,
          demoData.close.getD 0, demoData.time, 7⟩ ∧
    (processEmaUpdate 1 initState demoData 7 (fun _ => true)).1.positionState =
      initState.positionState ∧
    (processEmaUpdate 1 initState demoData 7 (fun _ => true)).1.pendingTrades =
      initState.pendingTrades ∧
    (processEmaUpdate 1 initState demoData 7 (fun _ => true)).1.lastTrades =
      initState.lastTrades ∧
    (processEmaUpdate 1 initState demoData 7 (fun _ => true)).2.1 = [] :=
  trend_update_frame 1 initState demoData "MNQZ2025" 7 (fun _ => true) rfl
    (by decide) rfl

/-! ### C1: the flat-implies-no-direction invariant is preserved -/

theorem posInvariant_of_posEq (st st' : EngineState)
    (h : st'.positionState = st.positionState) (hi : PosInvariant st) :
    PosInvariant st' := by
  intro t ht
  have hg : getPos st' t = getPos st t := by unfold getPos; rw [h]
  rw [hg] at ht ⊢
  exact hi t ht

theorem posInvariant_updatePos (st st' : EngineState) (k : String)
    (v : Position) (h : st'.positionState = upd st.positionState k v)
    (hv : v.isOpen = false → v.direction = none) (hi : PosInvariant st) :
    PosInvariant st' := by
  intro t ht
  have hg : getPos st' t = if t = k then v else getPos st t := by
    unfold getPos
    rw [h]
    by_cases hc : t = k <;> simp [upd, hc]
  by_cases hc : t = k
  · rw [hg, if_pos hc] at ht ⊢
    exact hv ht
  · rw [hg, if_neg hc] at ht ⊢
    exact hi t ht

theorem handleNewTrade_invariant (qty : ℤ) (st : EngineState)
    (ticker : String) (price : Option ℚ) (timeStr : Option String)
    (oracle : ℕ → Bool) (hi : PosInvariant st) :
    PosInvariant (handleNewTradeForTicker qty st ticker price timeStr oracle).1 := by
  by_cases hop : (getPos st ticker).isOpen = true
  · simp only [handleNewTradeForTicker, hop, if_true]
    exact posInvariant_updatePos st _ ticker _ rfl (fun h => by cases h) hi
  · simp only [handleNewTradeForTicker, if_neg hop]
    cases hE : st.emaState ticker with
    | none => exact hi
    | some e =>
      exact posInvariant_updatePos st _ ticker _ rfl (fun h => by cases h) hi

theorem handleExit_invariant (st : EngineState) (ticker : String)
    (price : Option ℚ) (timeStr : Option String) (oracle : ℕ → Bool)
    (hi : PosInvariant st) :
    PosInvariant (handleExitForTicker st ticker price timeStr oracle).1 := by
  exact posInvariant_updatePos st _ ticker _ rfl (fun _ => rfl) hi

/-- C1: after processing any signal (trend update, trade design, or
exit), every instrument's position still satisfies the invariant that a
flat position has direction `none`; an absent ledger entry reads as
flat with direction `none` (`getPos`). -/
theorem step_preserves_invariant (qty : ℤ) (st : EngineState) (sig : Signal)
    (now : ℚ) (oracle : ℕ → Bool) (hi : PosInvariant st) :
    PosInvariant (step qty st sig now oracle).1 := by
  cases sig with
  | emaUpdate data =>
    simp only [step, processEmaUpdate]
    rcases hdt : data.ticker with _ | t
    · simp only [update_ema_state_from_json, hdt]
      exact hi
    · by_cases hne : t = ""
      · simp only [update_ema_state_from_json, hdt, hne, if_pos]
        exact hi
      · simp only [update_ema_state_from_json, hdt, if_neg hne]
        rcases hp : st.pendingTrades t with _ | p
        · simp only [hp]
          exact posInvariant_of_posEq st _ rfl hi
        · simp only [hp]
          exact handleNewTrade_invariant _ _ _ _ _ _
            (posInvariant_of_posEq st _ rfl hi)
  | titanNewTrade t p =>
    simp only [step, processTitan]
    by_cases hf : titanFresh st t now = true
    · simp only [hf, if_true]
      exact handleNewTrade_invariant _ _ _ _ _ _ hi
    · simp only [if_neg hf]
      exact posInvariant_of_posEq st _ rfl hi
  | exitSig t p =>
    exact handleExit_invariant _ _ _ _ _ hi

/-- Witness for C1: the invariant holds in the empty state and after a
concrete exit signal processed from it. -/
theorem step_preserves_invariant_witness :
    PosInvariant initState ∧
    PosInvariant (step 1 initState (.exitSig "MNQZ2025" 25280) 0
        (fun _ => true)).1 := by
  have h0 : PosInvariant initState := by
    intro t _
    simp [getPos, initState]
  exact ⟨h0, step_preserves_invariant 1 initState (.exitSig "MNQZ2025" 25280)
    0 (fun _ => true) h0⟩

/-! ### C3: deferred-then-triggered equals immediate-fresh -/

/-- C3: for an instrument with a pending entry (as created by the Titan
branch: price present, time `None`), processing a trend update consumes
the pending entry and produces exactly the outcome (same state, same
instructions, same response) that processing that same trend update
without the pending entry followed immediately by a fresh
TradeDesignSignal at the pending entry's price would produce; the
trend-update half of the second path emits nothing by itself. -/
theorem defer_trigger_equiv (qty : ℤ) (st : EngineState)
    (data : EmaUpdateData) (t : String) (p : PendingTrade) (price now : ℚ)
    (oracle : ℕ → Bool)
    (ht : data.ticker = some t) (hne : ¬ t = "")
    (hp : st.pendingTrades t = some p)
    (hprice : p.price = some price) (htime : p.time = none) :
    processEmaUpdate qty st data now oracle =
      processTitan qty
        (processEmaUpdate qty
          { st with pendingTrades := erasePending st.pendingTrades t }
          data now oracle).1
        t price now oracle ∧
    (processEmaUpdate qty
        { st with pendingTrades := erasePending st.pendingTrades t }
        data now oracle).2.1 = [] ∧
    (processEmaUpdate qty st data now oracle).1.pendingTrades t = none := by
  have hobs :
      update_ema_state_from_json st data now =
        ({ st with
            emaState :=
              upd st.emaState t
                ⟨truthy data.aboveRaw, data.ema13.getD 0, data.close.getD 0,
                  data.time, now⟩ }, some t) := by
    simp [update_ema_state_from_json, ht, hne]
  have hobsB :
      update_ema_state_from_json
          { st with pendingTrades := erasePending st.pendingTrades t }
          data now =
        ({ st with
            emaState :=
              upd st.emaState t
                ⟨truthy data.aboveRaw, data.ema13.getD 0, data.close.getD 0,
                  data.time, now⟩,
            pendingTrades := erasePending st.pendingTrades t }, some t) := by
    simp [update_ema_state_from_json, ht, hne]
  have hB :
      processEmaUpdate qty
          { st with pendingTrades := erasePending st.pendingTrades t }
          data now oracle =
        ({ st with
            emaState :=
              upd st.emaState t
                ⟨truthy data.aboveRaw, data.ema13.getD 0, data.close.getD 0,
                  data.time, now⟩,
            pendingTrades := erasePending st.pendingTrades t },
          [], ⟨true, some "ema_update_only", none⟩) := by
    simp [processEmaUpdate, hobsB, erasePending]
  have hA :
      processEmaUpdate qty st data now oracle =
        handleNewTradeForTicker qty
          { st with
            emaState :=
              upd st.emaState t
                ⟨truthy data.aboveRaw, data.ema13.getD 0, data.close.getD 0,
                  data.time, now⟩,
            pendingTrades := erasePending st.pendingTrades t }
          t (some price) none oracle := by
    simp only [processEmaUpdate, hobs]
    simp only [hp, hprice, htime]
  have hfreshB :
      titanFresh
        ({ st with
            emaState :=
              upd st.emaState t
                ⟨truthy data.aboveRaw, data.ema13.getD 0, data.close.getD 0,
                  data.time, now⟩,
            pendingTrades := erasePending st.pendingTrades t } : EngineState)
        t now = true := by
    unfold titanFresh
    simp [upd]
  refine ⟨?_, by rw [hB], ?_⟩
  · rw [hA, hB]
    simp only [processTitan, hfreshB, if_true]
  · rw [hA, handleNewTrade_pending]
    simp [erasePending]

/-- Witness for C3: a pending trade for MNQZ2025 resolved by a trend
update, compared against the erased-then-fresh path. -/
theorem defer_trigger_equiv_witness :
    processEmaUpdate 1 demoPendingSt demoData 9 (fun _ => true) =
      processTitan 1
        (processEmaUpdate 1
          { demoPendingSt with
            pendingTrades := erasePending demoPendingSt.pendingTrades "MNQZ2025" }
          demoData 9 (fun _ => true)).1
        "MNQZ2025" 25312 9 (fun _ => true) ∧
    (processEmaUpdate 1
        { demoPendingSt with
          pendingTrades := erasePending demoPendingSt.pendingTrades "MNQZ2025" }
        demoData 9 (fun _ => true)).2.1 = [] ∧
    (processEmaUpdate 1 demoPendingSt demoData 9
        (fun _ => true)).1.pendingTrades "MNQZ2025" = none :=
  defer_trigger_equiv 1 demoPendingSt demoData "MNQZ2025" demoPending 25312 9
    (fun _ => true) rfl (by decide) rfl rfl rfl

/-- With a flat position and an existing EMA observation, the new-trade
handler opens in the direction given by `above13` and sends exactly one
entry payload. -/
theorem handleNewTrade_flat_entry (qty : ℤ) (st : EngineState)
    (ticker : String) (price : Option ℚ) (timeStr : Option String)
    (oracle : ℕ → Bool) (e : EmaInfo)
    (hflat : (getPos st ticker).isOpen = false)
    (hema : st.emaState ticker = some e) :
    handleNewTradeForTicker qty st ticker price timeStr oracle =
      ({ st with
          positionState :=
            upd st.positionState ticker
              ⟨true, some (if e.above13 then "buy" else "sell"), timeStr,
                none, price⟩,
          lastTrades :=
            upd st.lastTrades ticker
              (.newTrade (if e.above13 then "buy" else "sell") price
                e.above13 e timeStr (oracle 0)) },
        [⟨ticker, if e.above13 then "buy" else "sell",
          if qty > 0 then some qty else none, price⟩],
        ⟨oracle 0, some "new_trade", none⟩) := by
  simp [handleNewTradeForTicker, hflat, hema]

/-- A trend update on a state with a flat position and a pending entry
consumes the entry and opens a position at the pending price, in the
direction of the fresh observation. -/
theorem emaUpdate_fires_pending (qty : ℤ) (st : EngineState)
    (data : EmaUpdateData) (t : String) (p : PendingTrade)
    (price₂ now : ℚ) (oracle : ℕ → Bool)
    (ht : data.ticker = some t) (hne : ¬ t = "")
    (hp : st.pendingTrades t = some p)
    (hprice : p.price = some price₂) (htime : p.time = none)
    (hflat : (getPos st t).isOpen = false) :
    (processEmaUpdate qty st data now oracle).1.pendingTrades t = none ∧
    getPos (processEmaUpdate qty st data now oracle).1 t =
      ⟨true, some (if truthy data.aboveRaw then "buy" else "sell"), none,
        none, some price₂⟩ ∧
    (processEmaUpdate qty st data now oracle).2.1 =
      [⟨t, if truthy data.aboveRaw then "buy" else "sell",
        if qty > 0 then some qty else none, some price₂⟩] := by
  simp only [processEmaUpdate, update_ema_state_from_json, ht, if_neg hne,
    hp, hprice, htime]
  rw [handleNewTrade_flat_entry qty
      ⟨upd st.emaState t
        ⟨truthy data.aboveRaw, data.ema13.getD 0, data.close.getD 0,
          data.time, now⟩,
       st.lastTrades, st.positionState, erasePending st.pendingTrades t⟩
      t (some price₂) none oracle
      ⟨truthy data.aboveRaw, data.ema13.getD 0, data.close.getD 0,
        data.time, now⟩
      hflat (by simp [upd])]
  simp [getPos, upd, erasePending]

/-! ### C10: an ExitSignal leaves the pending queue untouched -/

/-- C10: processing an ExitSignal leaves the whole pending queue
unchanged; in particular a pending deferred trade for the instrument
survives the exit, and the next trend update for it still consumes the
entry and opens a new position (emitting one entry instruction at the
pending price), even though an exit was requested in between. -/
theorem exit_keeps_pending (qty : ℤ) (st : EngineState)
    (data : EmaUpdateData) (t : String) (p : PendingTrade)
    (price price₂ now : ℚ) (oracle oracle₂ : ℕ → Bool)
    (hp : st.pendingTrades t = some p)
    (hprice : p.price = some price₂) (htime : p.time = none)
    (ht : data.ticker = some t) (hne : ¬ t = "") :
    (processExit st t price oracle).1.pendingTrades = st.pendingTrades ∧
    (processEmaUpdate qty (processExit st t price oracle).1 data now
        oracle₂).1.pendingTrades t = none ∧
    getPos (processEmaUpdate qty (processExit st t price oracle).1 data now
        oracle₂).1 t =
      ⟨true, some (if truthy data.aboveRaw then "buy" else "sell"), none,
        none, some price₂⟩ ∧
    (processEmaUpdate qty (processExit st t price oracle).1 data now
        oracle₂).2.1 =
      [⟨t, if truthy data.aboveRaw then "buy" else "sell",
        if qty > 0 then some qty else none, some price₂⟩] := by
  have hflat : (getPos (processExit st t price oracle).1 t).isOpen = false := by
    simp [processExit, handleExitForTicker, getPos, upd]
  exact ⟨rfl, emaUpdate_fires_pending qty _ data t p price₂ now oracle₂ ht hne
    hp hprice htime hflat⟩

/-- Witness for C10: exit on a state holding a pending trade, then a
trend update that still fires the pending entry. -/
theorem exit_keeps_pending_witness :
    (processExit demoPendingSt "MNQZ2025" 25280 (fun _ => true)).1.pendingTrades =
      demoPendingSt.pendingTrades ∧
    (processEmaUpdate 1
        (processExit demoPendingSt "MNQZ2025" 25280 (fun _ => true)).1
        demoData 9 (fun _ => true)).1.pendingTrades "MNQZ2025" = none ∧
    getPos (processEmaUpdate 1
        (processExit demoPendingSt "MNQZ2025" 25280 (fun _ => true)).1
        demoData 9 (fun _ => true)).1 "MNQZ2025" =
      ⟨true, some (if truthy demoData.aboveRaw then "buy" else "sell"), none,
        none, some 25312⟩ ∧
    (processEmaUpdate 1
        (processExit demoPendingSt "MNQZ2025" 25280 (fun _ => true)).1
        demoData 9 (fun _ => true)).2.1 =
      [⟨"MNQZ2025", if truthy demoData.aboveRaw then "buy" else "sell",
        some 1, some 25312⟩] := by
  have h := exit_keeps_pending 1 demoPendingSt demoData "MNQZ2025" demoPending
    25280 25312 9 (fun _ => true) (fun _ => true) rfl rfl rfl rfl (by decide)
  simpa using h

/-! ### Parser lemmas

Because adjacent constructs of `TITAN_RE` draw from disjoint character
classes, the matcher is driven entirely by `takeWhile` / `dropWhile`
computations over list concatenations. -/

theorem takeWhile_append_all {p : Char → Bool} {l₁ : List Char}
    (l₂ : List Char) (h : ∀ c ∈ l₁, p c = true) :
    (l₁ ++ l₂).takeWhile p = l₁ ++ l₂.takeWhile p := by
  induction l₁ with
  | nil => simp
  | cons c cs ih =>
    have hc := h c (by simp)
    simp [List.takeWhile_cons, hc, ih (fun x hx => h x (by simp [hx]))]

theorem dropWhile_append_all {p : Char → Bool} {l₁ : List Char}
    (l₂ : List Char) (h : ∀ c ∈ l₁, p c = true) :
    (l₁ ++ l₂).dropWhile p = l₂.dropWhile p := by
  induction l₁ with
  | nil => simp
  | cons c cs ih =>
    have hc := h c (by simp)
    simp [List.dropWhile_cons, hc, ih (fun x hx => h x (by simp [hx]))]

theorem takeWhile_all {p : Char → Bool} {l : List Char}
    (h : ∀ c ∈ l, p c = true) : l.takeWhile p = l := by
  simpa using @takeWhile_append_all p l [] h

theorem dropLit_self (l r : List Char) : dropLit l (l ++ r) = some r := by
  induction l with
  | nil => rfl
  | cons c cs ih => simp [dropLit, ih]

theorem isWsChar_cases (c : Char) (h : isWsChar c = true) :
    c = ' ' ∨ c = '\t' ∨ c = '\n' ∨ c = '\r' ∨ c = '\x0b' ∨ c = '\x0c' := by
  simp only [isWsChar, Bool.or_eq_true, beq_iff_eq] at h
  tauto

theorem isWsChar_not_tick (c : Char) (h : isWsChar c = true) :
    isTickChar c = false := by
  rcases isWsChar_cases c h with rfl | rfl | rfl | rfl | rfl | rfl <;> decide

theorem isNumChar_not_ws (c : Char) (h : isNumChar c = true) :
    isWsChar c = false := by
  cases hw : isWsChar c with
  | false => rfl
  | true =>
    rcases isWsChar_cases c hw with rfl | rfl | rfl | rfl | rfl | rfl <;>
      exact absurd h (by decide)

/-- `TITAN_RE` matches, anchored at the start, any text of the shape
ticker-run, whitespace-run, `"New Trade Design"`, optional whitespace,
comma, optional whitespace, `"Price"`, optional whitespace, `"="`,
optional whitespace, numeral-run — capturing the ticker and the
numeral. -/
theorem matchTitanAt_complete (T W1 W2 W3 W4 W5 N : List Char)
    (hT : T ≠ []) (hTc : ∀ c ∈ T, isTickChar c = true)
    (hW1 : W1 ≠ []) (hW1c : ∀ c ∈ W1, isWsChar c = true)
    (hW2c : ∀ c ∈ W2, isWsChar c = true)
    (hW3c : ∀ c ∈ W3, isWsChar c = true)
    (hW4c : ∀ c ∈ W4, isWsChar c = true)
    (hW5c : ∀ c ∈ W5, isWsChar c = true)
    (hN : N ≠ []) (hNc : ∀ c ∈ N, isNumChar c = true) :
    matchTitanAt
      (T ++ (W1 ++ ("New Trade Design".data ++ (W2 ++ (',' ::
        (W3 ++ ("Price".data ++ (W4 ++ ('=' :: (W5 ++ N)))))))))) =
      some (T, N) := by
  cases T with
  | nil => exact absurd rfl hT
  | cons t0 Tr =>
  cases W1 with
  | nil => exact absurd rfl hW1
  | cons w0 W1r =>
  cases N with
  | nil => exact absurd rfl hN
  | cons n0 Nr =>
  have hw0 : isTickChar w0 = false := isWsChar_not_tick w0 (hW1c w0 (by simp))
  have hn0 : isWsChar n0 = false := isNumChar_not_ws n0 (hNc n0 (by simp))
  have e1 : List.takeWhile isTickChar
      ((t0 :: Tr) ++ ((w0 :: W1r) ++ ("New Trade Design".data ++ (W2 ++ (',' ::
        (W3 ++ ("Price".data ++ (W4 ++ ('=' :: (W5 ++ (n0 :: Nr))))))))))) =
      t0 :: Tr := by
    rw [takeWhile_append_all _ hTc]
    simp [List.takeWhile_cons, hw0]
  have e2 : List.dropWhile isTickChar
      ((t0 :: Tr) ++ ((w0 :: W1r) ++ ("New Trade Design".data ++ (W2 ++ (',' ::
        (W3 ++ ("Price".data ++ (W4 ++ ('=' :: (W5 ++ (n0 :: Nr))))))))))) =
      (w0 :: W1r) ++ ("New Trade Design".data ++ (W2 ++ (',' ::
        (W3 ++ ("Price".data ++ (W4 ++ ('=' :: (W5 ++ (n0 :: Nr))))))))) := by
    rw [dropWhile_append_all _ hTc]
    simp [List.dropWhile_cons, hw0]
  have e3 : List.takeWhile isWsChar
      ((w0 :: W1r) ++ ("New Trade Design".data ++ (W2 ++ (',' ::
        (W3 ++ ("Price".data ++ (W4 ++ ('=' :: (W5 ++ (n0 :: Nr)))))))))) =
      w0 :: W1r := by
    rw [takeWhile_append_all _ hW1c]
    rw [(rfl : "New Trade Design".data = 'N' :: "ew Trade Design".data)]
    simp [List.takeWhile_cons, (by decide : isWsChar 'N' = false)]
  have e4 : List.dropWhile isWsChar
      ((w0 :: W1r) ++ ("New Trade Design".data ++ (W2 ++ (',' ::
        (W3 ++ ("Price".data ++ (W4 ++ ('=' :: (W5 ++ (n0 :: Nr)))))))))) =
      "New Trade Design".data ++ (W2 ++ (',' ::
        (W3 ++ ("Price".data ++ (W4 ++ ('=' :: (W5 ++ (n0 :: Nr)))))))) := by
    rw [dropWhile_append_all _ hW1c]
    rw [(rfl : "New Trade Design".data = 'N' :: "ew Trade Design".data)]
    simp [List.dropWhile_cons, (by decide : isWsChar 'N' = false)]
  have e5 : dropLit "New Trade Design".data
      ("New Trade Design".data ++ (W2 ++ (',' ::
        (W3 ++ ("Price".data ++ (W4 ++ ('=' :: (W5 ++ (n0 :: Nr))))))))) =
      some (W2 ++ (',' ::
        (W3 ++ ("Price".data ++ (W4 ++ ('=' :: (W5 ++ (n0 :: Nr)))))))) :=
    dropLit_self ..
  have e6 : List.dropWhile isWsChar
      (W2 ++ (',' ::
        (W3 ++ ("Price".data ++ (W4 ++ ('=' :: (W5 ++ (n0 :: Nr)))))))) =
      ',' :: (W3 ++ ("Price".data ++ (W4 ++ ('=' :: (W5 ++ (n0 :: Nr)))))) := by
    rw [dropWhile_append_all _ hW2c]
    simp [List.dropWhile_cons, (by decide : isWsChar ',' = false)]
  have e7 : List.dropWhile isWsChar
      (W3 ++ ("Price".data ++ (W4 ++ ('=' :: (W5 ++ (n0 :: Nr)))))) =
      "Price".data ++ (W4 ++ ('=' :: (W5 ++ (n0 :: Nr)))) := by
    rw [dropWhile_append_all _ hW3c]
    rw [(rfl : "Price".data = 'P' :: "rice".data)]
    simp [List.dropWhile_cons, (by decide : isWsChar 'P' = false)]
  have e8 : dropLit "Price".data
      ("Price".data ++ (W4 ++ ('=' :: (W5 ++ (n0 :: Nr))))) =
      some (W4 ++ ('=' :: (W5 ++ (n0 :: Nr)))) :=
    dropLit_self ..
  have e9 : List.dropWhile isWsChar (W4 ++ ('=' :: (W5 ++ (n0 :: Nr)))) =
      '=' :: (W5 ++ (n0 :: Nr)) := by
    rw [dropWhile_append_all _ hW4c]
    simp [List.dropWhile_cons, (by decide : isWsChar '=' = false)]
  have e10 : List.dropWhile isWsChar (W5 ++ (n0 :: Nr)) = n0 :: Nr := by
    rw [dropWhile_append_all _ hW5c]
    simp [List.dropWhile_cons, hn0]
  have e11 : List.takeWhile isNumChar (n0 :: Nr) = n0 :: Nr :=
    takeWhile_all hNc
  simp only [matchTitanAt, e1, e2, e3, e4, e5, e6, e7, e8, e9, e10, e11,
    List.isEmpty_cons, Bool.false_eq_true, if_false]

theorem titanSearch_head (c : Char) (cs : List Char)
    (r : List Char × List Char) (h : matchTitanAt (c :: cs) = some r) :
    titanSearch (c :: cs) = some r := by
  simp [titanSearch, h]

/-! ### C9: the Titan free-text grammar -/

/-- C9 counterexample: the input
`"NQ1! New Trade Design , Price = 100"` has exactly the claimed shape —
instrument token `"NQ1!"` drawn from the claimed character set
(alphanumeric plus colon, underscore, dot, hyphen, bang), whitespace,
the literal phrase, a comma, `"Price"`, `"="`, and a number — yet the
parser does not classify it as a TradeDesignSignal: `TITAN_RE` only
admits `[A-Z0-9_]` in the ticker, so the bang makes the match fail. -/
theorem titan_grammar_cx :
    "NQ1!".data.all specInstChar = true ∧
    "NQ1! New Trade Design , Price = 100" =
      "NQ1!" ++ " " ++ "New Trade Design" ++ " , " ++ "Price" ++ " = " ++
        "100" ∧
    parse_titan_new_trade "NQ1! New Trade Design , Price = 100" = none := by
  refine ⟨by decide, by decide, by decide⟩

/-- C9 amended: for every free-text input of the shape
`<INSTRUMENT> <ws+> "New Trade Design" <ws*> "," <ws*> "Price" <ws*>
"=" <ws*> <number>`, where the instrument token consists of uppercase
letters, digits and underscore only (not the spec's larger symbol set)
and the comma is required (not optional), the parser classifies it as a
TradeDesignSignal carrying that instrument and that numeral. -/
theorem parse_titan_amended (tick w1 w2 w3 w4 w5 num : String)
    (hT : tick.data ≠ []) (hTc : ∀ c ∈ tick.data, isTickChar c = true)
    (hW1 : w1.data ≠ []) (hW1c : ∀ c ∈ w1.data, isWsChar c = true)
    (hW2c : ∀ c ∈ w2.data, isWsChar c = true)
    (hW3c : ∀ c ∈ w3.data, isWsChar c = true)
    (hW4c : ∀ c ∈ w4.data, isWsChar c = true)
    (hW5c : ∀ c ∈ w5.data, isWsChar c = true)
    (hN : num.data ≠ []) (hNc : ∀ c ∈ num.data, isNumChar c = true) :
    parse_titan_new_trade
      (tick ++ w1 ++ "New Trade Design" ++ w2 ++ "," ++ w3 ++ "Price" ++
        w4 ++ "=" ++ w5 ++ num) = some (tick, num) := by
  have hm := matchTitanAt_complete tick.data w1.data w2.data w3.data w4.data
    w5.data num.data hT hTc hW1 hW1c hW2c hW3c hW4c hW5c hN hNc
  have hd : (tick ++ w1 ++ "New Trade Design" ++ w2 ++ "," ++ w3 ++
      "Price" ++ w4 ++ "=" ++ w5 ++ num).data =
      tick.data ++ (w1.data ++ ("New Trade Design".data ++ (w2.data ++ (',' ::
        (w3.data ++ ("Price".data ++ (w4.data ++ ('=' ::
          (w5.data ++ num.data))))))))) := by
    simp only [String.data_append, List.append_assoc,
      (rfl : (",").data = [',']), (rfl : ("=").data = ['=']),
      List.singleton_append, List.cons_append, List.nil_append,
      List.append_nil]
  cases hTT : tick.data with
  | nil => exact absurd hTT hT
  | cons t0 Tr =>
    rw [hTT, List.cons_append] at hm
    unfold parse_titan_new_trade
    rw [hd, hTT, List.cons_append, titanSearch_head _ _ _ hm, ← hTT]
    rfl

/-- Witness for the amended C9 on the example alert from app.py's
comment. -/
theorem parse_titan_amended_witness :
    parse_titan_new_trade
      ("MNQZ2025" ++ " " ++ "New Trade Design" ++ " " ++ "," ++ " " ++
        "Price" ++ " " ++ "=" ++ " " ++ "25787.50") =
      some ("MNQZ2025", "25787.50") :=
  parse_titan_amended "MNQZ2025" " " " " " " " " " " "25787.50"
    (by decide) (by decide) (by decide) (by decide) (by decide) (by decide)
    (by decide) (by decide) (by decide) (by decide)

end Scalper
